import Mathlib

/-!
Shallow embedding of the BasicWaveSynth core (Resample.cpp, ADSR in AudioData.cpp,
WavetableSynth.cpp) over exact rationals.  Float and double values are modelled as
rationals; the transcendental library calls (pow, sin, exp) that only scale values
are abstracted into explicit function parameters bundled in an environment record,
so that every definition stays executable and each theorem can be evaluated on
concrete inputs.  Out-of-bounds reads of the interleaved sample buffer, which are
undefined behaviour in the C++, are modelled by Option-valued access.
-/

namespace BasicWaveSynth

/-- Truncation toward zero of a rational, modelling the C cast from double to a
signed integer type. -/
def cTrunc (q : ℚ) : ℤ := if 0 ≤ q then ⌊q⌋ else -⌊-q⌋

/-- The spec's real-valued mod used by the folding formula:
x mod y = x - floor(x / y) * y. -/
def ratMod (x y : ℚ) : ℚ := x - (⌊x / y⌋ : ℚ) * y

/-- AudioData: immutable interleaved sample buffer with frame count, channel
count and native sampling rate (AudioData.cpp). -/
structure AudioData where
  fdata : List ℚ
  frame_count : ℕ
  channel_count : ℕ
  sampling_rate : ℚ

/-- Bounds-checked read of the raw interleaved buffer, modelling
audio_data->data()[k]; an index outside the buffer is undefined behaviour in
the C++ and yields none here. -/
def AudioData.dataAt (ad : AudioData) (k : ℤ) : Option ℚ :=
  if 0 ≤ k then ad.fdata.get? k.toNat else none

/-- Resample: fractional read position driver over one AudioData
(Resample.cpp).  The C++ object holds a pointer to the AudioData; the pointed-to
buffer is immutable, so it is stored by value here. -/
structure Resample where
  audio_data : AudioData
  ichannel : ℕ
  findex : ℚ
  speedup : ℚ
  multiplier : ℚ
  iloop_bgn : ℕ
  iloop_end : ℕ

/-- Resample::Resample — note the initial fractional index 0.8, not 0. -/
def Resample.construct (ad : AudioData) (channel : ℕ) (factor : ℚ)
    (loop_bgn loop_end : ℕ) : Resample :=
  { audio_data := ad, ichannel := channel, findex := 4/5, speedup := factor,
    multiplier := factor, iloop_bgn := loop_bgn, iloop_end := loop_end }

/-- The tail of Resample::output after i, e and the (possibly folded) index have
been computed: interpolate when e is in bounds, otherwise the end-of-data
epsilon check on the raw findex, otherwise silence.  Mirrors lines 61-75 of
Resample.cpp; the two unconditional data()[...] reads become Option reads. -/
def Resample.lerpAt (r : Resample) (i e : ℤ) (index : ℚ) : Option ℚ :=
  let ad := r.audio_data
  let channels : ℤ := ad.channel_count
  if e < (ad.frame_count : ℤ) then
    let t1 : ℚ := index - (i : ℚ)
    let t0 : ℚ := 1 - t1
    match ad.dataAt (i * channels + r.ichannel),
          ad.dataAt (e * channels + r.ichannel) with
    | some init, some fin => some ((t0 * init) + fin * t1)
    | _, _ => none
  else if (ad.frame_count : ℤ) = i ∧ r.findex - (i : ℚ) < 1/1000 then
    ad.dataAt (i * channels + r.ichannel)
  else
    some 0

/-- Resample::output.  When looping is enabled and the unwrapped index passed
loop_end, fold: interval = loop_end - loop_bgn, iters = (findex - loop_bgn) /
interval, subtract (unsigned)iters * interval, recompute i; e wraps to
loop_bgn exactly when frames() == i (the code compares i, not e). -/
def Resample.output (r : Resample) : Option ℚ :=
  if r.iloop_bgn < r.iloop_end ∧ ((r.iloop_end : ℚ)) < r.findex then
    let interval : ℕ := r.iloop_end - r.iloop_bgn
    let iters : ℚ := (r.findex - (r.iloop_bgn : ℚ)) / (interval : ℚ)
    let back : ℕ := (cTrunc iters).toNat * interval
    let index : ℚ := r.findex - (back : ℚ)
    let i : ℤ := cTrunc index
    let e : ℤ := if (r.audio_data.frame_count : ℤ) = i then (r.iloop_bgn : ℤ) else i + 1
    r.lerpAt i e index
  else
    r.lerpAt (cTrunc r.findex) (cTrunc r.findex + 1) r.findex

/-- Resample::next — advance the fractional index by the current speedup. -/
def Resample.next (r : Resample) : Resample :=
  { r with findex := r.findex + r.speedup }

/-- Resample::pitchOffset — speedup = multiplier * pow(2, cents / 1200).
The parameter pow2f models the map c -> 2 ^ (c / 1200). -/
def Resample.pitchOffset (pow2f : ℚ → ℚ) (r : Resample) (cents : ℚ) : Resample :=
  { r with speedup := r.multiplier * pow2f cents }

/-- Resample::reset — index back to 0; looping, speed and pitch offset kept. -/
def Resample.reset (r : Resample) : Resample :=
  { r with findex := 0 }

/-- The folded read position prescribed by the spec's description of the loop
wraparound: loop_begin + ((index - loop_begin) mod (loop_end - loop_begin)).
Stated with ratMod so the code's fold computation can be compared against it. -/
def foldPos (r : Resample) : ℚ :=
  (r.iloop_bgn : ℚ) +
    ratMod (r.findex - (r.iloop_bgn : ℚ)) (((r.iloop_end - r.iloop_bgn : ℕ)) : ℚ)

/-- The four envelope phases of the ADSR state machine (ADSR.h). -/
inductive Mode where
  | ATTACK
  | DECAY
  | SUSTAIN
  | RELEASE
deriving DecidableEq

/-- linearDegradeRate from ADSR.cpp: 1/(t*R) guarded by the degenerate cases
t = 0 or R = 0; the d and s parameters are taken and ignored as in the C++. -/
def linearDegradeRate (t R d s : ℚ) : ℚ :=
  if t = 0 ∨ R = 0 then 1 else 1 / (t * R)

/-- expDegradeRate from ADSR.cpp: 0 when the duration is zero, 1 when the
sample rate is zero (in that order), else pow(e, -(EXP_DECAY/t)/R).  The
transcendental last branch is abstracted into the parameter eR. -/
def expDegradeRate (eR : ℚ → ℚ → ℚ) (t R : ℚ) : ℚ :=
  if t = 0 then 0 else if R = 0 then 1 else eR t R

/-- ADSR envelope state: phase, amplitude and the per-phase rates. -/
structure ADSR where
  current_mode : Mode
  envelope : ℚ
  sustain_level : ℚ
  attack_increment : ℚ
  decay_factor : ℚ
  release_factor : ℚ
deriving DecidableEq

/-- ADSR::ADSR(a, d, s, r, R): amplitude starts at 1 when a = 0, else 0. -/
def ADSR.construct (eR : ℚ → ℚ → ℚ) (a d s r R : ℚ) : ADSR :=
  { current_mode := Mode.ATTACK,
    envelope := if a = 0 then 1 else 0,
    sustain_level := s,
    attack_increment := linearDegradeRate a R d s,
    decay_factor := expDegradeRate eR d R,
    release_factor := expDegradeRate eR r R }

/-- ADSR::sustainOff — enter the release phase. -/
def ADSR.sustainOff (st : ADSR) : ADSR :=
  { st with current_mode := Mode.RELEASE }

/-- ADSR::reset — amplitude to 0 and phase to Attack, unconditionally. -/
def ADSR.reset (st : ADSR) : ADSR :=
  { st with envelope := 0, current_mode := Mode.ATTACK }

/-- ADSR::output — the current amplitude. -/
def ADSR.output (st : ADSR) : ℚ :=
  st.envelope

/-- ADSR::mode — the current phase. -/
def ADSR.mode (st : ADSR) : Mode :=
  st.current_mode

/-- ADSR::next — one tick of the envelope state machine.  The RELEASE arm also
covers the default label of the C++ switch. -/
def ADSR.next (st : ADSR) : ADSR :=
  match st.current_mode with
  | Mode.ATTACK =>
    let env := st.envelope + st.attack_increment
    if 1 ≤ env then { st with envelope := 1, current_mode := Mode.DECAY }
    else { st with envelope := env }
  | Mode.DECAY =>
    let env := st.envelope * st.decay_factor
    if env ≤ st.sustain_level then { st with envelope := st.sustain_level }
    else { st with envelope := env }
  | Mode.SUSTAIN => st
  | Mode.RELEASE =>
    { st with envelope := st.envelope * st.release_factor }

/-- The sampled instruments of WavetableSynth.h (Max and Default are the count
and an alias, not sounds). -/
inductive Voice where
  | Grand
  | Oboe
  | Cello
deriving DecidableEq

/-- WavetableSynth::WaveData — one sample region: loaded audio file, channel,
loop bounds and base gain.  The file contents are external data, so the
AudioData field is just carried as a value. -/
structure WaveData where
  source : AudioData
  channel : ℕ
  first : ℕ
  last : ℕ
  speed : ℚ

/-- The ten file-scope WaveData globals of WavetableSynth.cpp (grand0..grand7,
cello, oboe).  Their sample buffers come from .wav files outside this core, so
a bank is passed in rather than fixed. -/
structure WaveBank where
  grand0 : WaveData
  grand1 : WaveData
  grand2 : WaveData
  grand3 : WaveData
  grand4 : WaveData
  grand5 : WaveData
  grand6 : WaveData
  grand7 : WaveData
  cello : WaveData
  oboe : WaveData

/-- External environment: the sample bank plus the transcendental library
functions used by the engine, kept abstract so definitions stay executable:
pow2f models c -> pow(2, c/1200) (Resample::pitchOffset), eR models
(t, R) -> pow(e, -(EXP_DECAY/t)/R) (expDegradeRate's last branch), sinf models
sin, and tau models the float constant TWO_PI. -/
structure Ext where
  bank : WaveBank
  pow2f : ℚ → ℚ
  eR : ℚ → ℚ → ℚ
  sinf : ℚ → ℚ
  tau : ℚ

/-- MAX_NOTES from WavetableSynth.h. -/
abbrev MAX_NOTES : ℕ := 10

/-- WavetableSynth::Note — one voice: key in cents (-1 when inactive),
velocity, instrument, resampler and envelope. -/
structure Note where
  key : ℤ
  vel : ℚ
  inst : Voice
  phase : Resample
  env : ADSR

/-- Note::SetSound — rebuild the resampler from a WaveData record and apply the
key-relative pitch offset (A440_CENTS = 6900). -/
def Note.SetSound (E : Ext) (n : Note) (data : WaveData) (sampling_rate : ℚ) : Note :=
  let rate_offset : ℚ := sampling_rate / data.source.sampling_rate
  let ph := Resample.construct data.source data.channel
    (if rate_offset = 0 then data.speed else data.speed * rate_offset)
    data.first data.last
  { n with phase := ph.pitchOffset E.pow2f ((n.key : ℚ) - 6900) }

/-- Note::Play — select the WaveData for the instrument (and key register for
the piano) and SetSound it. -/
def Note.Play (E : Ext) (n : Note) (rate : ℚ) : Note :=
  match n.inst with
  | Voice.Grand =>
    if n.key < 1600 then n.SetSound E E.bank.grand0 rate
    else if n.key < 3200 then n.SetSound E E.bank.grand1 rate
    else if n.key < 4800 then n.SetSound E E.bank.grand2 rate
    else if n.key < 6400 then n.SetSound E E.bank.grand3 rate
    else if n.key < 8000 then n.SetSound E E.bank.grand4 rate
    else if n.key < 9600 then n.SetSound E E.bank.grand5 rate
    else if n.key < 11200 then n.SetSound E E.bank.grand6 rate
    else n.SetSound E E.bank.grand7 rate
  | Voice.Cello => n.SetSound E E.bank.cello rate
  | Voice.Oboe => n.SetSound E E.bank.oboe rate

/-- Note::next — no-op when inactive; deactivate and detune when released below
EPSILON = 0.01; otherwise advance resampler and envelope one sample. -/
def Note.next (E : Ext) (n : Note) : Note :=
  if n.key = -1 then n
  else if n.env.mode = Mode.RELEASE ∧ n.env.output < 1/100 then
    { n with
      key := -1, vel := 0,
      phase := n.phase.pitchOffset E.pow2f (-25600) }
  else
    { n with phase := n.phase.next, env := n.env.next }

/-- Note::output — resampled sample times envelope times MIX_DOWN = 0.3.  The
Option from the buffer read is mapped through. -/
def Note.output (n : Note) : Option ℚ :=
  (n.phase.output).map (fun v => v * n.env.output * (3/10))

/-- WavetableSynth — the voice pool and global controls. -/
structure WavetableSynth where
  playing : Fin MAX_NOTES → Note
  bend : ℚ
  rate : ℚ
  vibrato : ℚ
  mod : ℚ
  vol : ℚ
  mphase : ℚ
  dphase : ℚ
  newest : Fin MAX_NOTES
  patch : Voice

/-- The modulation-phase wraparound of WavetableSynth::next:
mphase = (t <= TWO_PI) ? t : (t - TWO_PI). -/
def wrapPhase (tau t : ℚ) : ℚ :=
  if t ≤ tau then t else t - tau

/-- WavetableSynth::next — when vibrato is nonzero, advance and wrap the
modulation phase and push the combined pitch offset to the resampler of every
voice (the C++ loop has no activity check); then call next() on every voice. -/
def WavetableSynth.next (E : Ext) (s : WavetableSynth) : WavetableSynth :=
  let s1 : WavetableSynth :=
    if s.vibrato ≠ 0 then
      let m2 := wrapPhase E.tau (s.mphase + s.dphase)
      let md := s.vibrato * E.sinf m2
      { s with
        mphase := m2, mod := md,
        playing := fun i =>
          { s.playing i with
            phase := (s.playing i).phase.pitchOffset E.pow2f
              (md + s.bend + (((s.playing i).key : ℚ)) - 6900) } }
    else s
  { s1 with playing := fun i => Note.next E (s1.playing i) }

/-- WavetableSynth::output — sum of active voices' outputs scaled by volume. -/
def WavetableSynth.output (s : WavetableSynth) : Option ℚ :=
  (List.foldl (fun acc i =>
      acc.bind (fun a =>
        if (s.playing i).key < 0 then some a
        else ((s.playing i).output).map (fun v => a + v)))
    (some 0) (List.finRange MAX_NOTES)).map (fun v => v * s.vol)

/-- The scan order of WavetableSynth::onNoteOn: first the loop i = newest ..
MAX_NOTES-1, then the loop i = 0 .. newest-1. -/
def scanList (newest : Fin MAX_NOTES) : List (Fin MAX_NOTES) :=
  (List.finRange MAX_NOTES).drop newest.val ++ (List.finRange MAX_NOTES).take newest.val

/-- The body shared by the two scan loops of onNoteOn: stop at a voice already
holding the key (early return with that slot); otherwise run the free-slot
bookkeeping exactly as written in the C++ — the guard is 0 <= index (modelled
as idx.isSome, index starting at -1 = none), so a free slot is recorded only if
one was already recorded.  Returns (matched slot if any, final index). -/
def noteScan (playing : Fin MAX_NOTES → Note) (note : ℤ) :
    List (Fin MAX_NOTES) → Option (Fin MAX_NOTES) →
    Option (Fin MAX_NOTES) × Option (Fin MAX_NOTES)
  | [], idx => (none, idx)
  | j :: rest, idx =>
    if (playing j).key = note then (some j, idx)
    else noteScan playing note rest
      (if idx.isSome ∧ (playing j).key < 0 then some j else idx)

/-- WavetableSynth::onNoteOn.  Key = note * 100.  A retrigger refreshes
velocity and resets envelope and resampler phase of the matched slot.
Otherwise the slot is the recorded free index, or newest + 1 (wrapping) when
none was recorded; the C++ then assigns key and velocity to that slot, writes
the instrument to slot newest (the loop variable i, which equals newest after
both loops), calls Play and env.reset on the chosen slot and makes it the new
newest. -/
def WavetableSynth.onNoteOn (E : Ext) (s : WavetableSynth) (note velocity : ℤ) :
    WavetableSynth :=
  let key := note * 100
  match noteScan s.playing key (scanList s.newest) none with
  | (some j, _) =>
    { s with
      playing := Function.update s.playing j
        { s.playing j with
          vel := (velocity : ℚ) * (1/127),
          env := (s.playing j).env.reset,
          phase := (s.playing j).phase.reset } }
  | (none, idx) =>
    let index : Fin MAX_NOTES :=
      match idx with
      | some j => j
      | none =>
        if h : s.newest.val + 1 = MAX_NOTES then ⟨0, by omega⟩
        else ⟨s.newest.val + 1, by omega⟩
    let p1 := Function.update s.playing index
      { s.playing index with key := key, vel := (velocity : ℚ) * (1/127) }
    let p2 := Function.update p1 s.newest { p1 s.newest with inst := s.patch }
    let p3 := Function.update p2 index (Note.Play E (p2 index) s.rate)
    let p4 := Function.update p3 index
      { p3 index with env := (p3 index).env.reset }
    { s with playing := p4, newest := index }

/-- WavetableSynth::onNoteOff — sustainOff every voice whose key matches. -/
def WavetableSynth.onNoteOff (s : WavetableSynth) (note : ℤ) : WavetableSynth :=
  let key := note * 100
  { s with playing := fun i =>
      if (s.playing i).key = key then
        { s.playing i with env := (s.playing i).env.sustainOff }
      else s.playing i }

/-- WavetableSynth::onPitchWheelChange — bend = value * CENTS_RANGE (200), then
reapply bend + key - A440_CENTS to every voice's resampler (again no activity
check in the C++ loop). -/
def WavetableSynth.onPitchWheelChange (E : Ext) (s : WavetableSynth) (value : ℚ) :
    WavetableSynth :=
  let b := value * 200
  { s with
    bend := b,
    playing := fun i =>
      { s.playing i with
        phase := (s.playing i).phase.pitchOffset E.pow2f
          (b + (((s.playing i).key : ℚ)) - 6900) } }

/-! Concrete instances used by the evaluation and witness theorems. -/

/-- A fixed stand-in for the abstract exponential decay computation. -/
def eRHalf : ℚ → ℚ → ℚ := fun _ _ => 1/2

/-- An empty sample buffer (the buffer contents never matter to the pool
theorems). -/
def trivData : AudioData :=
  { fdata := [], frame_count := 0, channel_count := 0, sampling_rate := 1 }

/-- A minimal WaveData over the empty buffer. -/
def trivWave : WaveData :=
  { source := trivData, channel := 0, first := 0, last := 0, speed := 1 }

/-- A bank filled with the minimal WaveData. -/
def trivBank : WaveBank :=
  ⟨trivWave, trivWave, trivWave, trivWave, trivWave,
   trivWave, trivWave, trivWave, trivWave, trivWave⟩

/-- A concrete external environment: pow2f and sinf replaced by simple rational
functions so evaluation stays exact. -/
def trivExt : Ext :=
  { bank := trivBank, pow2f := fun c => c, eR := eRHalf, sinf := fun _ => 0,
    tau := 10 }

/-- The envelope every Note of the pool is built with:
ADSR(0.01, 600, 0.8, 4, R). -/
def adsrRef : ADSR := ADSR.construct eRHalf (1/100) 600 (4/5) 4 44100

/-- A pool voice holding key k, with a distinguishable resampler speed. -/
def mkNote (k : ℤ) : Note :=
  { key := k, vel := 0, inst := Voice.Grand,
    phase := { audio_data := trivData, ichannel := 0, findex := 0, speedup := 5,
               multiplier := 1, iloop_bgn := 0, iloop_end := 0 },
    env := adsrRef }

/-- Pool state: newest = 0; slots 0 and 1 active (keys 6900 and 7000), slots
2..9 inactive. -/
def exSynth : WavetableSynth :=
  { playing := fun i =>
      if i.val = 0 then mkNote 6900
      else if i.val = 1 then mkNote 7000 else mkNote (-1),
    bend := 0, rate := 44100, vibrato := 0, mod := 0, vol := 1/2, mphase := 0,
    dphase := 1, newest := 0, patch := Voice.Grand }

/-- Same pool, but slot 1 carries instrument Cello while the active patch is
Oboe, to track where the instrument assignment lands. -/
def exSynth2 : WavetableSynth :=
  { exSynth with
    playing := fun i =>
      if i.val = 0 then mkNote 6900
      else if i.val = 1 then { mkNote 7000 with inst := Voice.Cello }
      else mkNote (-1),
    patch := Voice.Oboe }

/-- Pool with nonzero vibrato and every slot inactive. -/
def vibSynth : WavetableSynth :=
  { exSynth with playing := fun _ => mkNote (-1), vibrato := 1 }

/-- A voice in Release whose envelope has fallen below the 0.01 epsilon. -/
def relNote : Note :=
  { key := 6900, vel := 1, inst := Voice.Grand,
    phase := { audio_data := trivData, ichannel := 0, findex := 0, speedup := 5,
               multiplier := 1, iloop_bgn := 0, iloop_end := 0 },
    env := { current_mode := Mode.RELEASE, envelope := 1/200,
             sustain_level := 4/5, attack_increment := 1, decay_factor := 1/2,
             release_factor := 1/2 } }

/-- Pool with vibrato 0 whose slot 0 is about to deactivate. -/
def relSynth : WavetableSynth :=
  { exSynth with
    playing := fun i => if i.val = 0 then relNote else mkNote (-1) }

/-- An envelope sitting in Decay above its sustain level. -/
def decaySt : ADSR :=
  { current_mode := Mode.DECAY, envelope := 1, sustain_level := 1/3,
    attack_increment := 1, decay_factor := 1/2, release_factor := 1/2 }

/-- Four mono frames 10, 20, 30, 40. -/
def adFour : AudioData :=
  { fdata := [10, 20, 30, 40], frame_count := 4, channel_count := 1,
    sampling_rate := 1 }

/-- Looping resampler over adFour, loop [1, 3), index already past loop_end. -/
def rFold : Resample :=
  { audio_data := adFour, ichannel := 0, findex := 9/2, speedup := 1,
    multiplier := 1, iloop_bgn := 1, iloop_end := 3 }

/-- Two mono frames 1, 2. -/
def adPair : AudioData :=
  { fdata := [1, 2], frame_count := 2, channel_count := 1, sampling_rate := 1 }

/-- Looping resampler whose loop_end equals the frame count, index past
loop_end: the fold lands on the segment whose upper frame e equals the frame
count. -/
def rEdgeFold : Resample :=
  { audio_data := adPair, ichannel := 0, findex := 7/2, speedup := 1,
    multiplier := 1, iloop_bgn := 0, iloop_end := 2 }

/-- Two mono frames 3, 7. -/
def adEnd : AudioData :=
  { fdata := [3, 7], frame_count := 2, channel_count := 1, sampling_rate := 1 }

/-- Non-looping resampler whose index sits exactly at the frame count (within
the 0.001 epsilon window). -/
def rPastEnd : Resample :=
  { audio_data := adEnd, ichannel := 0, findex := 2, speedup := 1,
    multiplier := 1, iloop_bgn := 0, iloop_end := 0 }

/-- Two mono frames 2, 5, for the freshly-constructed-resampler theorem. -/
def adFresh : AudioData :=
  { fdata := [2, 5], frame_count := 2, channel_count := 1, sampling_rate := 1 }

/-! Helper lemmas. -/

/-- One Decay tick keeps the phase in Decay, never drops the amplitude below
the sustain level, and preserves the sustain level and decay factor. -/
theorem decay_step (st : ADSR) (hm : st.current_mode = Mode.DECAY)
    (hs : st.sustain_level ≤ st.envelope) (h0 : 0 ≤ st.decay_factor)
    (h1 : st.decay_factor ≤ 1) :
    st.next.current_mode = Mode.DECAY ∧
    st.sustain_level ≤ st.next.envelope ∧
    st.next.sustain_level = st.sustain_level ∧
    st.next.decay_factor = st.decay_factor := by
  obtain ⟨m, env, s, ai, df, rf⟩ := st
  dsimp only at hm hs h0 h1
  subst hm
  simp only [ADSR.next]
  split_ifs with h
  · exact ⟨rfl, le_refl _, rfl, rfl⟩
  · exact ⟨rfl, le_of_lt (lt_of_not_le h), rfl, rfl⟩

/-- Iterating Decay ticks preserves the Decay phase, the amplitude bound and
the state parameters. -/
theorem decay_iter (st : ADSR) (hm : st.current_mode = Mode.DECAY)
    (hs : st.sustain_level ≤ st.envelope) (h0 : 0 ≤ st.decay_factor)
    (h1 : st.decay_factor ≤ 1) (n : ℕ) :
    (ADSR.next^[n] st).current_mode = Mode.DECAY ∧
    st.sustain_level ≤ (ADSR.next^[n] st).envelope ∧
    (ADSR.next^[n] st).sustain_level = st.sustain_level ∧
    (ADSR.next^[n] st).decay_factor = st.decay_factor := by
  induction n generalizing st with
  | zero => exact ⟨hm, hs, rfl, rfl⟩
  | succ n ih =>
    obtain ⟨m1, e1, s1, f1⟩ := decay_step st hm hs h0 h1
    have h0' : 0 ≤ st.next.decay_factor := f1 ▸ h0
    have h1' : st.next.decay_factor ≤ 1 := f1 ▸ h1
    have hs' : st.next.sustain_level ≤ st.next.envelope := s1 ▸ e1
    obtain ⟨m2, e2, s2, f2⟩ := ih st.next m1 hs' h0' h1'
    rw [Function.iterate_succ_apply]
    exact ⟨m2, le_trans (le_of_eq (s1.symm)) (s1 ▸ e2), by rw [s2, s1],
      by rw [f2, f1]⟩

/-- ratMod is nonnegative when the modulus is positive. -/
theorem ratMod_nonneg (x y : ℚ) (hy : 0 < y) : 0 ≤ ratMod x y := by
  have h := Int.floor_le (x / y)
  have h2 : (⌊x / y⌋ : ℚ) * y ≤ x / y * y := mul_le_mul_of_nonneg_right h hy.le
  rw [div_mul_cancel₀ x hy.ne'] at h2
  unfold ratMod
  linarith

/-- ratMod stays below a positive modulus. -/
theorem ratMod_lt (x y : ℚ) (hy : 0 < y) : ratMod x y < y := by
  have h := Int.lt_floor_add_one (x / y)
  have h2 : x / y * y < ((⌊x / y⌋ : ℚ) + 1) * y := mul_lt_mul_of_pos_right h hy
  rw [div_mul_cancel₀ x hy.ne', add_mul, one_mul] at h2
  unfold ratMod
  linarith

/-- Shifting the argument by one modulus leaves ratMod unchanged. -/
theorem ratMod_add_right (x y : ℚ) (hy : y ≠ 0) : ratMod (x + y) y = ratMod x y := by
  unfold ratMod
  have h : (x + y) / y = x / y + 1 := by field_simp
  rw [h, Int.floor_add_one]
  push_cast
  ring

/-- The folded position is at or above loop_begin. -/
theorem foldPos_lb (r : Resample) (h1 : r.iloop_bgn < r.iloop_end) :
    (r.iloop_bgn : ℚ) ≤ foldPos r := by
  have hL : (0 : ℚ) < ((r.iloop_end - r.iloop_bgn : ℕ) : ℚ) := by
    exact_mod_cast Nat.sub_pos_of_lt h1
  have := ratMod_nonneg (r.findex - (r.iloop_bgn : ℚ)) _ hL
  unfold foldPos
  linarith

/-- The folded position is strictly below loop_end. -/
theorem foldPos_ub (r : Resample) (h1 : r.iloop_bgn < r.iloop_end) :
    foldPos r < (r.iloop_end : ℚ) := by
  have hL : (0 : ℚ) < ((r.iloop_end - r.iloop_bgn : ℕ) : ℚ) := by
    exact_mod_cast Nat.sub_pos_of_lt h1
  have hm := ratMod_lt (r.findex - (r.iloop_bgn : ℚ)) _ hL
  have hcast : ((r.iloop_end - r.iloop_bgn : ℕ) : ℚ)
      = (r.iloop_end : ℚ) - (r.iloop_bgn : ℚ) := by
    push_cast [Nat.cast_sub h1.le]
    ring
  unfold foldPos
  linarith [hcast ▸ hm]

/-- When looping is enabled and the index has passed loop_end, the code's fold
computes exactly the spec's folded position, and output reduces to the
interpolation tail at that position (with e wrapping to loop_begin only when
the folded integer frame i equals the frame count). -/
theorem output_fold_eq (r : Resample) (h1 : r.iloop_bgn < r.iloop_end)
    (h2 : ((r.iloop_end : ℚ)) < r.findex) :
    Resample.output r
      = r.lerpAt ⌊foldPos r⌋
          (if (r.audio_data.frame_count : ℤ) = ⌊foldPos r⌋ then (r.iloop_bgn : ℤ)
            else ⌊foldPos r⌋ + 1)
          (foldPos r) := by
  have hL0 : 0 < r.iloop_end - r.iloop_bgn := Nat.sub_pos_of_lt h1
  have hL : (0 : ℚ) < ((r.iloop_end - r.iloop_bgn : ℕ) : ℚ) := by exact_mod_cast hL0
  have hBE : (r.iloop_bgn : ℚ) ≤ (r.iloop_end : ℚ) := by exact_mod_cast h1.le
  have hq : 0 ≤ r.findex - (r.iloop_bgn : ℚ) := by linarith
  have hiters : 0 ≤ (r.findex - (r.iloop_bgn : ℚ))
      / ((r.iloop_end - r.iloop_bgn : ℕ) : ℚ) := div_nonneg hq hL.le
  have htr : cTrunc ((r.findex - (r.iloop_bgn : ℚ))
        / ((r.iloop_end - r.iloop_bgn : ℕ) : ℚ))
      = ⌊(r.findex - (r.iloop_bgn : ℚ)) / ((r.iloop_end - r.iloop_bgn : ℕ) : ℚ)⌋ := by
    rw [cTrunc, if_pos hiters]
  have hfl0 : 0 ≤ ⌊(r.findex - (r.iloop_bgn : ℚ))
      / ((r.iloop_end - r.iloop_bgn : ℕ) : ℚ)⌋ := Int.floor_nonneg.mpr hiters
  have hidx : r.findex - (((cTrunc ((r.findex - (r.iloop_bgn : ℚ))
        / ((r.iloop_end - r.iloop_bgn : ℕ) : ℚ))).toNat
        * (r.iloop_end - r.iloop_bgn) : ℕ) : ℚ)
      = foldPos r := by
    rw [htr, Nat.cast_mul]
    rw [show (((⌊(r.findex - (r.iloop_bgn : ℚ))
          / ((r.iloop_end - r.iloop_bgn : ℕ) : ℚ)⌋).toNat : ℕ) : ℚ)
        = ((⌊(r.findex - (r.iloop_bgn : ℚ))
          / ((r.iloop_end - r.iloop_bgn : ℕ) : ℚ)⌋ : ℤ) : ℚ) from by
      exact_mod_cast congrArg (fun z : ℤ => (z : ℚ)) (Int.toNat_of_nonneg hfl0)]
    unfold foldPos ratMod
    ring
  have hpos : (0 : ℚ) ≤ foldPos r := by
    have hb : (0 : ℚ) ≤ (r.iloop_bgn : ℚ) := by positivity
    linarith [foldPos_lb r h1]
  have htr2 : cTrunc (foldPos r) = ⌊foldPos r⌋ := by
    rw [cTrunc, if_pos hpos]
  simp only [Resample.output]
  rw [if_pos (⟨h1, h2⟩ : r.iloop_bgn < r.iloop_end ∧ ((r.iloop_end : ℚ)) < r.findex)]
  rw [hidx, htr2]

/-- The buffer read succeeds for any in-bounds index. -/
theorem dataAt_some (ad : AudioData) (k : ℤ) (h0 : 0 ≤ k)
    (hlt : k < (ad.fdata.length : ℤ)) : ∃ v, ad.dataAt k = some v := by
  rw [AudioData.dataAt, if_pos h0]
  have hk : k.toNat < ad.fdata.length := by omega
  exact ⟨ad.fdata.get ⟨k.toNat, hk⟩, List.get?_eq_get hk⟩

/-- lerpAt only consults findex in the end-of-data epsilon test, so two
resamplers over the same data and channel whose indices both sit at least
0.001 above frame i produce the same value. -/
theorem lerpAt_far (r r2 : Resample) (i e : ℤ) (x : ℚ)
    (had : r2.audio_data = r.audio_data) (hch : r2.ichannel = r.ichannel)
    (hfar : ¬(r.findex - (i : ℚ) < 1/1000))
    (hfar2 : ¬(r2.findex - (i : ℚ) < 1/1000)) :
    r2.lerpAt i e x = r.lerpAt i e x := by
  simp only [Resample.lerpAt, had, hch]
  by_cases hlt : e < (r.audio_data.frame_count : ℤ)
  · rw [if_pos hlt, if_pos hlt]
  · rw [if_neg hlt, if_neg hlt, if_neg (fun hc => hfar2 hc.2),
      if_neg (fun hc => hfar hc.2)]

/-! Claim theorems. -/

/-- C5: an envelope in Decay with amplitude at or above sustain_level and a
decay factor in [0, 1] stays in Decay under any number of next() calls, its
amplitude never falls below sustain_level, and on a tick where the decayed
value would dip below sustain_level the amplitude is clamped to exactly
sustain_level. -/
theorem C5_decay_clamps_at_sustain (st : ADSR) (n : ℕ)
    (hm : st.current_mode = Mode.DECAY)
    (hs : st.sustain_level ≤ st.envelope)
    (h0 : 0 ≤ st.decay_factor) (h1 : st.decay_factor ≤ 1) :
    (ADSR.next^[n] st).current_mode = Mode.DECAY ∧
    st.sustain_level ≤ (ADSR.next^[n] st).envelope ∧
    ((ADSR.next^[n] st).envelope * st.decay_factor ≤ st.sustain_level →
      (ADSR.next^[n + 1] st).envelope = st.sustain_level) := by
  obtain ⟨m2, e2, s2, f2⟩ := decay_iter st hm hs h0 h1 n
  refine ⟨m2, e2, fun hcl => ?_⟩
  rw [Function.iterate_succ_apply']
  set u := ADSR.next^[n] st with hu
  obtain ⟨m, env, s, ai, df, rf⟩ := u
  dsimp only at m2 s2 f2 ⊢
  subst m2
  simp only [ADSR.next]
  rw [if_pos]
  · exact s2
  · rw [f2, s2]; exact hcl

/-- C5 witness: a concrete Decay state checked after three ticks. -/
theorem C5_decay_clamps_at_sustain_witness :
    decaySt.current_mode = Mode.DECAY ∧
    decaySt.sustain_level ≤ decaySt.envelope ∧
    0 ≤ decaySt.decay_factor ∧ decaySt.decay_factor ≤ 1 ∧
    ((ADSR.next^[3] decaySt).current_mode = Mode.DECAY ∧
      decaySt.sustain_level ≤ (ADSR.next^[3] decaySt).envelope ∧
      ((ADSR.next^[3] decaySt).envelope * decaySt.decay_factor ≤
          decaySt.sustain_level →
        (ADSR.next^[3 + 1] decaySt).envelope = decaySt.sustain_level)) :=
  ⟨rfl, by norm_num [decaySt], by norm_num [decaySt], by norm_num [decaySt],
    C5_decay_clamps_at_sustain decaySt 3 rfl (by norm_num [decaySt])
      (by norm_num [decaySt]) (by norm_num [decaySt])⟩

/-- C6 counterexample: with zero sample rate and zero decay duration the decay
factor is 0, not 1 (the zero-duration branch takes precedence); and with
nonzero sample rate and zero decay duration, one tick taken in the Decay state
leaves the amplitude at the sustain level 1/2, not at silence, because the
Decay clamp raises the zeroed amplitude back to sustain_level. -/
theorem C6_zero_duration_cex :
    (ADSR.construct eRHalf 1 0 (1/2) 4 0).decay_factor = 0 ∧
    ((0 : ℚ) = 1 → False) ∧
    (ADSR.next^[1] (ADSR.construct eRHalf 0 0 (1/2) 4 100)).current_mode
      = Mode.DECAY ∧
    (ADSR.next^[2] (ADSR.construct eRHalf 0 0 (1/2) 4 100)).envelope = 1/2 ∧
    ((1 : ℚ)/2 = 0 → False) := by
  refine ⟨by norm_num [ADSR.construct, expDegradeRate], by norm_num, ?_, ?_,
    by norm_num⟩ <;>
  norm_num [Function.iterate_succ, Function.iterate_zero, ADSR.construct,
    ADSR.next, linearDegradeRate, expDegradeRate, eRHalf]

/-- C6 amended: a zero decay or release duration makes the corresponding
factor 0 (this branch takes precedence even over a zero sample rate); one tick
in Release then silences the envelope, while one tick in Decay lands on the
sustain level because of the clamp; a zero sample rate with nonzero duration
gives factor 1; no branch divides by zero. -/
theorem C6_degenerate_factors (eR : ℚ → ℚ → ℚ) (t R : ℚ) (st : ADSR)
    (ht : t ≠ 0) (hs : 0 ≤ st.sustain_level) :
    expDegradeRate eR 0 R = 0 ∧
    expDegradeRate eR t 0 = 1 ∧
    (st.current_mode = Mode.RELEASE → st.release_factor = 0 →
      st.next.envelope = 0) ∧
    (st.current_mode = Mode.DECAY → st.decay_factor = 0 →
      st.next.envelope = st.sustain_level) := by
  refine ⟨by simp [expDegradeRate], by simp [expDegradeRate, ht], ?_, ?_⟩ <;>
  · intro hm hf
    obtain ⟨m, env, s, ai, df, rf⟩ := st
    dsimp only at hm hf hs
    subst hm hf
    simp only [ADSR.next, mul_zero]
    try rw [if_pos hs]

/-- C6 witness: concrete degenerate inputs for the amended statement. -/
theorem C6_degenerate_factors_witness :
    (1 : ℚ) ≠ 0 ∧ 0 ≤ decaySt.sustain_level ∧
    (expDegradeRate eRHalf 0 7 = 0 ∧
      expDegradeRate eRHalf 1 0 = 1 ∧
      (decaySt.current_mode = Mode.RELEASE → decaySt.release_factor = 0 →
        decaySt.next.envelope = 0) ∧
      (decaySt.current_mode = Mode.DECAY → decaySt.decay_factor = 0 →
        decaySt.next.envelope = decaySt.sustain_level)) :=
  ⟨by norm_num, by norm_num [decaySt],
    C6_degenerate_factors eRHalf 1 7 decaySt (by norm_num)
      (by norm_num [decaySt])⟩

/-- C7 counterexample: an envelope constructed with attack_seconds = 0 starts
at amplitude 1, but reset() drops the amplitude to 0 rather than 1. -/
theorem C7_reset_amplitude_cex :
    (ADSR.construct eRHalf 0 600 (4/5) 4 44100).envelope = 1 ∧
    (ADSR.construct eRHalf 0 600 (4/5) 4 44100).reset.envelope = 0 ∧
    ((0 : ℚ) = 1 → False) := by
  norm_num [ADSR.construct, ADSR.reset]

/-- C7 amended: reset() puts every envelope in Attack with amplitude 0,
unconditionally — the amplitude-1 initialisation for attack_seconds = 0 happens
only in the constructor; after a reset of such an envelope, the degenerate
attack increment 1 restores amplitude 1 (and moves to Decay) on the next
tick. -/
theorem C7_reset_to_attack_zero (st : ADSR) (eR : ℚ → ℚ → ℚ) (d s r R : ℚ) :
    st.reset.current_mode = Mode.ATTACK ∧
    st.reset.envelope = 0 ∧
    (ADSR.construct eR 0 d s r R).envelope = 1 ∧
    (ADSR.construct eR 0 d s r R).reset.next.envelope = 1 ∧
    (ADSR.construct eR 0 d s r R).reset.next.current_mode = Mode.DECAY := by
  refine ⟨rfl, rfl, by simp [ADSR.construct], ?_, ?_⟩ <;>
  norm_num [ADSR.construct, ADSR.reset, ADSR.next, linearDegradeRate]

/-- C9: a freshly constructed resampler has fractional index 0.8 (= 4/5), so
its first output interpolates frames 0 and 1 with weight 0.8 on frame 1; the
index only becomes 0 through reset(), while next() adds the speedup and
pitchOffset leaves the index alone. -/
theorem C9_initial_index (ad : AudioData) (ch : ℕ) (f : ℚ) (b e : ℕ)
    (r : Resample) (pf : ℚ → ℚ) (c : ℚ) (v0 v1 : ℚ)
    (hfr : 2 ≤ ad.frame_count)
    (h0 : ad.dataAt (ch : ℤ) = some v0)
    (h1 : ad.dataAt ((ad.channel_count : ℤ) + (ch : ℤ)) = some v1) :
    (Resample.construct ad ch f b e).findex = 4/5 ∧
    (Resample.construct ad ch f b e).output
      = some ((1 - 4/5) * v0 + v1 * (4/5)) ∧
    (Resample.reset r).findex = 0 ∧
    (Resample.next r).findex = r.findex + r.speedup ∧
    (Resample.pitchOffset pf r c).findex = r.findex := by
  refine ⟨rfl, ?_, rfl, rfl, rfl⟩
  have hguard : ¬((Resample.construct ad ch f b e).iloop_bgn
      < (Resample.construct ad ch f b e).iloop_end ∧
      (((Resample.construct ad ch f b e).iloop_end : ℚ))
        < (Resample.construct ad ch f b e).findex) := by
    rintro ⟨hbe, hlt⟩
    simp only [Resample.construct] at hbe hlt
    have he1 : (1 : ℚ) ≤ (e : ℚ) := by
      exact_mod_cast Nat.one_le_iff_ne_zero.mpr (by omega)
    linarith
  rw [Resample.output, if_neg hguard]
  have htr : cTrunc ((Resample.construct ad ch f b e).findex) = 0 := by
    simp only [Resample.construct, cTrunc]
    norm_num
  rw [htr]
  have hfr2 : ((0 : ℤ) + 1) < ((Resample.construct ad ch f b e).audio_data.frame_count : ℤ) := by
    simp only [Resample.construct]
    exact_mod_cast hfr
  rw [Resample.lerpAt, if_pos hfr2]
  have hk0 : ((0 : ℤ) * ((Resample.construct ad ch f b e).audio_data.channel_count : ℤ)
      + ((Resample.construct ad ch f b e).ichannel : ℤ)) = (ch : ℤ) := by
    simp [Resample.construct]
  have hk1 : (((0 : ℤ) + 1) * ((Resample.construct ad ch f b e).audio_data.channel_count : ℤ)
      + ((Resample.construct ad ch f b e).ichannel : ℤ))
      = ((ad.channel_count : ℤ) + (ch : ℤ)) := by
    simp [Resample.construct]
  simp only [Resample.construct] at hk0 hk1 ⊢
  rw [hk0, hk1, h0, h1]
  norm_num

/-- C9 witness: the concrete two-frame source 2, 5. -/
theorem C9_initial_index_witness :
    2 ≤ adFresh.frame_count ∧
    adFresh.dataAt ((0 : ℕ) : ℤ) = some 2 ∧
    adFresh.dataAt ((adFresh.channel_count : ℤ) + ((0 : ℕ) : ℤ)) = some 5 ∧
    ((Resample.construct adFresh 0 1 0 0).findex = 4/5 ∧
      (Resample.construct adFresh 0 1 0 0).output
        = some ((1 - 4/5) * 2 + 5 * (4/5)) ∧
      (Resample.reset (Resample.construct adFresh 0 1 0 0)).findex = 0 ∧
      (Resample.next (Resample.construct adFresh 0 1 0 0)).findex
        = (Resample.construct adFresh 0 1 0 0).findex
          + (Resample.construct adFresh 0 1 0 0).speedup ∧
      (Resample.pitchOffset id (Resample.construct adFresh 0 1 0 0) 0).findex
        = (Resample.construct adFresh 0 1 0 0).findex) :=
  ⟨by norm_num [adFresh], by norm_num [adFresh, AudioData.dataAt, List.get?],
    by norm_num [adFresh, AudioData.dataAt, List.get?],
    C9_initial_index adFresh 0 1 0 0 (Resample.construct adFresh 0 1 0 0) id 0 2 5
      (by norm_num [adFresh])
      (by norm_num [adFresh, AudioData.dataAt, List.get?])
      (by norm_num [adFresh, AudioData.dataAt, List.get?])⟩

/-- C4: for a non-looping resampler whose index has reached the frame count
(within the 0.001 end window), the code indexes the buffer at
frame_count * channels + channel — one whole frame past the final frame — so
it does not return the final sample (frame frame_count - 1, which exists and
is 7 here); the modelled out-of-bounds read yields none.  Indices past the
last frame but below the frame count return 0 instead of the final sample as
well. -/
theorem C4_past_end_reads_out_of_bounds :
    (rPastEnd.iloop_bgn < rPastEnd.iloop_end → False) ∧
    rPastEnd.findex = (rPastEnd.audio_data.frame_count : ℚ) ∧
    adEnd.dataAt (((adEnd.frame_count : ℤ) - 1) * (adEnd.channel_count : ℤ) + 0)
      = some 7 ∧
    Resample.output rPastEnd = none ∧
    Resample.output { rPastEnd with findex := 3/2 } = some 0 := by
  refine ⟨by norm_num [rPastEnd], by norm_num [rPastEnd, adEnd],
    by norm_num [adEnd, AudioData.dataAt, List.get?], ?_, ?_⟩ <;>
  norm_num [Resample.output, Resample.lerpAt, cTrunc, rPastEnd, adEnd,
    AudioData.dataAt, List.get?, show Int.toNat 2 = 2 from rfl]

/-- C1: with pool state newest = 0, slots 0 and 1 active (keys 6900 and 7000)
and slots 2..9 inactive, a noteOn of the unheld note 72 steals the active slot
newest + 1 = 1 (silencing key 7000) and leaves the inactive slot 2 untouched,
because the scan's free-slot guard (0 <= index) is inverted and never records
an inactive slot. -/
theorem C1_noteOn_steals_despite_free_slot :
    (exSynth.playing 0).key = 6900 ∧
    (exSynth.playing 1).key = 7000 ∧
    (exSynth.playing 2).key = -1 ∧
    exSynth.newest = 0 ∧
    ((WavetableSynth.onNoteOn trivExt exSynth 72 100).playing 1).key = 7200 ∧
    ((WavetableSynth.onNoteOn trivExt exSynth 72 100).playing 2).key = -1 ∧
    (WavetableSynth.onNoteOn trivExt exSynth 72 100).newest = 1 := by
  refine ⟨by decide, by decide, by decide, by decide, by decide, by decide,
    by decide⟩

/-- C2: in the same pool state the claim's chosen slot (the first inactive
slot, 2) receives neither the key nor the velocity — they land on the steal
slot 1 — and, with slot 1 carrying instrument Cello while the active patch is
Oboe, the patch is written to slot 0 (the old newest, the C++ loop variable i)
instead of the slot that received the note, which keeps Cello. -/
theorem C2_noteOn_assigns_wrong_slot :
    ((WavetableSynth.onNoteOn trivExt exSynth 72 100).playing 2).key = -1 ∧
    ((WavetableSynth.onNoteOn trivExt exSynth 72 100).playing 2).vel = 0 ∧
    ((WavetableSynth.onNoteOn trivExt exSynth2 72 100).playing 1).key = 7200 ∧
    ((WavetableSynth.onNoteOn trivExt exSynth2 72 100).playing 1).inst
      = Voice.Cello ∧
    ((WavetableSynth.onNoteOn trivExt exSynth2 72 100).playing 0).inst
      = Voice.Oboe ∧
    (Voice.Cello = Voice.Oboe → False) := by
  refine ⟨by decide, by decide, by decide, by decide, by decide, by decide⟩

/-- C8 counterexample: with vibrato depth 1 (nonzero) every slot of vibSynth is
inactive (key -1) with resampler speed 5, yet one pool tick overwrites the
inactive slot's speed with multiplier * pow2f(mod + bend - 1 - 6900) = -6901
under the concrete environment — the speed of an inactive voice does not stay
unchanged. -/
theorem C8_vibrato_pushes_inactive_cex :
    vibSynth.vibrato ≠ 0 ∧
    (vibSynth.playing 3).key = -1 ∧
    (vibSynth.playing 3).phase.speedup = 5 ∧
    ((WavetableSynth.next trivExt vibSynth).playing 3).phase.speedup = -6901 ∧
    ((-6901 : ℚ) = 5 → False) := by
  refine ⟨by norm_num [vibSynth, exSynth], by decide, by norm_num [vibSynth,
    exSynth, mkNote], ?_, by norm_num⟩
  norm_num [WavetableSynth.next, vibSynth, exSynth, mkNote, wrapPhase,
    Note.next, Resample.pitchOffset, trivExt, ADSR.mode, ADSR.output, adsrRef,
    ADSR.construct, expDegradeRate, linearDegradeRate, eRHalf]

/-- C8 amended: when vibrato is nonzero, one pool tick advances the modulation
phase by dphase (wrapping at tau) and pushes the pitch offset
vibrato * sin(phase) + bend + key - 6900 to the resampler of every voice —
inactive voices included, computed with their key -1 — and then runs every
voice's per-sample next(): an inactive voice keeps the freshly pushed speed, an
active voice that is not deactivating keeps it too while its index advances by
it and its envelope ticks, and a deactivating voice (Release below 0.01) is
re-detuned to -25600 cents. -/
theorem C8_vibrato_tick (E : Ext) (s : WavetableSynth) (hv : s.vibrato ≠ 0) :
    (WavetableSynth.next E s).mphase = wrapPhase E.tau (s.mphase + s.dphase) ∧
    (WavetableSynth.next E s).mod
      = s.vibrato * E.sinf (wrapPhase E.tau (s.mphase + s.dphase)) ∧
    (∀ i : Fin MAX_NOTES, (s.playing i).key = -1 →
      ((WavetableSynth.next E s).playing i).phase.speedup
        = (s.playing i).phase.multiplier *
            E.pow2f (s.vibrato * E.sinf (wrapPhase E.tau (s.mphase + s.dphase))
              + s.bend + (((s.playing i).key : ℚ)) - 6900)) ∧
    (∀ i : Fin MAX_NOTES, (s.playing i).key ≠ -1 →
      ¬((s.playing i).env.current_mode = Mode.RELEASE ∧
          (s.playing i).env.envelope < 1/100) →
      ((WavetableSynth.next E s).playing i).phase.speedup
        = (s.playing i).phase.multiplier *
            E.pow2f (s.vibrato * E.sinf (wrapPhase E.tau (s.mphase + s.dphase))
              + s.bend + (((s.playing i).key : ℚ)) - 6900) ∧
      ((WavetableSynth.next E s).playing i).phase.findex
        = (s.playing i).phase.findex
          + (s.playing i).phase.multiplier *
              E.pow2f (s.vibrato * E.sinf (wrapPhase E.tau (s.mphase + s.dphase))
                + s.bend + (((s.playing i).key : ℚ)) - 6900) ∧
      ((WavetableSynth.next E s).playing i).env = (s.playing i).env.next) ∧
    (∀ i : Fin MAX_NOTES, (s.playing i).key ≠ -1 →
      (s.playing i).env.current_mode = Mode.RELEASE →
      (s.playing i).env.envelope < 1/100 →
      ((WavetableSynth.next E s).playing i).key = -1 ∧
      ((WavetableSynth.next E s).playing i).phase.speedup
        = (s.playing i).phase.multiplier * E.pow2f (-25600)) := by
  refine ⟨?_, ?_, ?_, ?_, ?_⟩
  · simp only [WavetableSynth.next, if_pos hv]
  · simp only [WavetableSynth.next, if_pos hv]
  · intro i hk
    simp only [WavetableSynth.next, if_pos hv, Note.next, ADSR.mode,
      ADSR.output, Resample.pitchOffset, hk]
    norm_num
  · intro i hk hnd
    simp only [WavetableSynth.next, if_pos hv, Note.next, ADSR.mode,
      ADSR.output, Resample.pitchOffset, Resample.next]
    rw [if_neg hk, if_neg hnd]
    exact ⟨rfl, rfl, rfl⟩
  · intro i hk hrel heps
    simp only [WavetableSynth.next, if_pos hv, Note.next, ADSR.mode,
      ADSR.output, Resample.pitchOffset]
    rw [if_neg hk, if_pos ⟨hrel, heps⟩]
    exact ⟨rfl, rfl⟩

/-- C8 witness: the amended statement evaluated on the all-inactive
nonzero-vibrato pool. -/
theorem C8_vibrato_tick_witness :
    vibSynth.vibrato ≠ 0 ∧
    ((WavetableSynth.next trivExt vibSynth).mphase
        = wrapPhase trivExt.tau (vibSynth.mphase + vibSynth.dphase) ∧
      (WavetableSynth.next trivExt vibSynth).mod
        = vibSynth.vibrato *
            trivExt.sinf (wrapPhase trivExt.tau (vibSynth.mphase + vibSynth.dphase)) ∧
      (∀ i : Fin MAX_NOTES, (vibSynth.playing i).key = -1 →
        ((WavetableSynth.next trivExt vibSynth).playing i).phase.speedup
          = (vibSynth.playing i).phase.multiplier *
              trivExt.pow2f (vibSynth.vibrato *
                trivExt.sinf (wrapPhase trivExt.tau (vibSynth.mphase + vibSynth.dphase))
                + vibSynth.bend + (((vibSynth.playing i).key : ℚ)) - 6900)) ∧
      (∀ i : Fin MAX_NOTES, (vibSynth.playing i).key ≠ -1 →
        ¬((vibSynth.playing i).env.current_mode = Mode.RELEASE ∧
            (vibSynth.playing i).env.envelope < 1/100) →
        ((WavetableSynth.next trivExt vibSynth).playing i).phase.speedup
          = (vibSynth.playing i).phase.multiplier *
              trivExt.pow2f (vibSynth.vibrato *
                trivExt.sinf (wrapPhase trivExt.tau (vibSynth.mphase + vibSynth.dphase))
                + vibSynth.bend + (((vibSynth.playing i).key : ℚ)) - 6900) ∧
        ((WavetableSynth.next trivExt vibSynth).playing i).phase.findex
          = (vibSynth.playing i).phase.findex
            + (vibSynth.playing i).phase.multiplier *
                trivExt.pow2f (vibSynth.vibrato *
                  trivExt.sinf (wrapPhase trivExt.tau (vibSynth.mphase + vibSynth.dphase))
                  + vibSynth.bend + (((vibSynth.playing i).key : ℚ)) - 6900) ∧
        ((WavetableSynth.next trivExt vibSynth).playing i).env
          = (vibSynth.playing i).env.next) ∧
      (∀ i : Fin MAX_NOTES, (vibSynth.playing i).key ≠ -1 →
        (vibSynth.playing i).env.current_mode = Mode.RELEASE →
        (vibSynth.playing i).env.envelope < 1/100 →
        ((WavetableSynth.next trivExt vibSynth).playing i).key = -1 ∧
        ((WavetableSynth.next trivExt vibSynth).playing i).phase.speedup
          = (vibSynth.playing i).phase.multiplier * trivExt.pow2f (-25600))) :=
  ⟨by norm_num [vibSynth, exSynth],
    C8_vibrato_tick trivExt vibSynth (by norm_num [vibSynth, exSynth])⟩

/-- C10 counterexample: vibrato is 0 in relSynth, yet a pool tick changes the
resampler speed of slot 0 from 5 to -25600: the voice deactivates during
next() (Release envelope 1/200 < 0.01) and its pitch offset is overwritten by
the detune. -/
theorem C10_novibrato_detunes_dying_cex :
    relSynth.vibrato = 0 ∧
    (relSynth.playing 0).phase.speedup = 5 ∧
    ((WavetableSynth.next trivExt relSynth).playing 0).phase.speedup = -25600 ∧
    ((-25600 : ℚ) = 5 → False) := by
  refine ⟨by norm_num [relSynth, exSynth], by norm_num [relSynth, exSynth,
    relNote], ?_, by norm_num⟩
  norm_num [WavetableSynth.next, relSynth, exSynth, relNote, mkNote, wrapPhase,
    Note.next, Resample.pitchOffset, trivExt, ADSR.mode, ADSR.output]

/-- C10 amended: with vibrato 0 a pool tick leaves the modulation phase and
accumulator unchanged and leaves every voice's pitch offset (resampler speed)
unchanged, except that a voice deactivating during the tick is detuned to
-25600 cents; so a stale vibrato contribution persists until a pitch-wheel
change, a fresh note assignment, a patch change, the deactivation detune or a
later nonzero-vibrato tick overwrites it. -/
theorem C10_novibrato_tick (E : Ext) (s : WavetableSynth) (hv : s.vibrato = 0) :
    (WavetableSynth.next E s).mphase = s.mphase ∧
    (WavetableSynth.next E s).mod = s.mod ∧
    (∀ i : Fin MAX_NOTES, ¬((s.playing i).key ≠ -1 ∧
        (s.playing i).env.current_mode = Mode.RELEASE ∧
        (s.playing i).env.envelope < 1/100) →
      ((WavetableSynth.next E s).playing i).phase.speedup
        = (s.playing i).phase.speedup) ∧
    (∀ i : Fin MAX_NOTES, (s.playing i).key ≠ -1 →
      (s.playing i).env.current_mode = Mode.RELEASE →
      (s.playing i).env.envelope < 1/100 →
      ((WavetableSynth.next E s).playing i).phase.speedup
        = (s.playing i).phase.multiplier * E.pow2f (-25600)) := by
  have hvne : ¬s.vibrato ≠ 0 := fun h => h hv
  refine ⟨?_, ?_, ?_, ?_⟩
  · simp only [WavetableSynth.next, if_neg hvne]
  · simp only [WavetableSynth.next, if_neg hvne]
  · intro i hno
    simp only [WavetableSynth.next, if_neg hvne, Note.next, ADSR.mode,
      ADSR.output, Resample.next, Resample.pitchOffset]
    by_cases hk : (s.playing i).key = -1
    · rw [if_pos hk]
    · rw [if_neg hk, if_neg (fun hc => hno ⟨hk, hc.1, hc.2⟩)]
  · intro i hk hrel heps
    simp only [WavetableSynth.next, if_neg hvne, Note.next, ADSR.mode,
      ADSR.output, Resample.pitchOffset]
    rw [if_neg hk, if_pos ⟨hrel, heps⟩]

/-- C10 witness: the amended statement evaluated on the zero-vibrato pool with
a deactivating voice. -/
theorem C10_novibrato_tick_witness :
    relSynth.vibrato = 0 ∧
    ((WavetableSynth.next trivExt relSynth).mphase = relSynth.mphase ∧
      (WavetableSynth.next trivExt relSynth).mod = relSynth.mod ∧
      (∀ i : Fin MAX_NOTES, ¬((relSynth.playing i).key ≠ -1 ∧
          (relSynth.playing i).env.current_mode = Mode.RELEASE ∧
          (relSynth.playing i).env.envelope < 1/100) →
        ((WavetableSynth.next trivExt relSynth).playing i).phase.speedup
          = (relSynth.playing i).phase.speedup) ∧
      (∀ i : Fin MAX_NOTES, (relSynth.playing i).key ≠ -1 →
        (relSynth.playing i).env.current_mode = Mode.RELEASE →
        (relSynth.playing i).env.envelope < 1/100 →
        ((WavetableSynth.next trivExt relSynth).playing i).phase.speedup
          = (relSynth.playing i).phase.multiplier * trivExt.pow2f (-25600))) :=
  ⟨by norm_num [relSynth, exSynth],
    C10_novibrato_tick trivExt relSynth (by norm_num [relSynth, exSynth])⟩

/-- C3 counterexample: rEdgeFold loops over [0, 2) on a 2-frame source with
index 7/2 past loop_end; the folded position is 3/2, so the upper
interpolation frame e = 2 reaches the frame count.  The claim says e then
wraps to loop_begin, interpolating (1 - 1/2) * 2 + 1 * (1/2) = 3/2 (frames 1
and 0 hold samples 2 and 1); the code instead compares the frame count against
i, does not wrap, and returns 0. -/
theorem C3_loop_fold_e_wrap_cex :
    rEdgeFold.iloop_bgn < rEdgeFold.iloop_end ∧
    ((rEdgeFold.iloop_end : ℚ)) < rEdgeFold.findex ∧
    foldPos rEdgeFold = 3/2 ∧
    (⌊foldPos rEdgeFold⌋ + 1 : ℤ) = (rEdgeFold.audio_data.frame_count : ℤ) ∧
    rEdgeFold.audio_data.dataAt 1 = some 2 ∧
    rEdgeFold.audio_data.dataAt (rEdgeFold.iloop_bgn : ℤ) = some 1 ∧
    Resample.output rEdgeFold = some 0 ∧
    Resample.output
        { rEdgeFold with
          findex := rEdgeFold.findex
            + ((rEdgeFold.iloop_end - rEdgeFold.iloop_bgn : ℕ) : ℚ) }
      = some 0 ∧
    ((1 - (3/2 - 1)) * 2 + 1 * ((3 : ℚ)/2 - 1) = 3/2) ∧
    ((0 : ℚ) = 3/2 → False) := by
  refine ⟨by norm_num [rEdgeFold], by norm_num [rEdgeFold], ?_, ?_,
    by norm_num [rEdgeFold, adPair, AudioData.dataAt, List.get?],
    by norm_num [rEdgeFold, adPair, AudioData.dataAt, List.get?], ?_, ?_,
    by norm_num, by norm_num⟩
  · norm_num [foldPos, ratMod, rEdgeFold]
  · norm_num [foldPos, ratMod, rEdgeFold, adPair]
  · norm_num [Resample.output, Resample.lerpAt, cTrunc, rEdgeFold, adPair,
      AudioData.dataAt, List.get?]
  · norm_num [Resample.output, Resample.lerpAt, cTrunc, rEdgeFold, adPair,
      AudioData.dataAt, List.get?, show Int.toNat 2 = 2 from rfl]

/-- C3 amended: for a looping resampler past loop_end, the output is periodic
in the index with period loop_end - loop_begin, and whenever loop_end is
strictly below the frame count the output is the linear interpolation at the
folded position loop_begin + ((index - loop_begin) mod (loop_end -
loop_begin)) between the folded frame i and i + 1; the code wraps e to
loop_begin only when the folded i itself equals the frame count, so when e
reaches the frame count (loop_end equal to the frame count) the interpolation
is skipped and the output is 0 rather than an interpolation wrapped to
loop_begin. -/
theorem C3_loop_fold_periodic (r : Resample)
    (h1 : r.iloop_bgn < r.iloop_end)
    (h2 : ((r.iloop_end : ℚ)) < r.findex) :
    Resample.output
        { r with findex := r.findex + ((r.iloop_end - r.iloop_bgn : ℕ) : ℚ) }
      = Resample.output r ∧
    (r.iloop_end < r.audio_data.frame_count →
      r.audio_data.fdata.length
        = r.audio_data.frame_count * r.audio_data.channel_count →
      r.ichannel < r.audio_data.channel_count →
      ∃ v0 v1,
        r.audio_data.dataAt (⌊foldPos r⌋ * (r.audio_data.channel_count : ℤ)
          + (r.ichannel : ℤ)) = some v0 ∧
        r.audio_data.dataAt ((⌊foldPos r⌋ + 1) * (r.audio_data.channel_count : ℤ)
          + (r.ichannel : ℤ)) = some v1 ∧
        Resample.output r
          = some ((1 - (foldPos r - (⌊foldPos r⌋ : ℚ))) * v0
              + v1 * (foldPos r - (⌊foldPos r⌋ : ℚ)))) := by
  have hL : (0 : ℚ) < ((r.iloop_end - r.iloop_bgn : ℕ) : ℚ) := by
    exact_mod_cast Nat.sub_pos_of_lt h1
  have hiE : ⌊foldPos r⌋ < (r.iloop_end : ℤ) := by
    apply Int.floor_lt.mpr
    exact_mod_cast foldPos_ub r h1
  have hfarq : ¬(r.findex - ((⌊foldPos r⌋ : ℤ) : ℚ) < 1/1000) := by
    have : ((⌊foldPos r⌋ : ℤ) : ℚ) + 1 ≤ (r.iloop_end : ℚ) := by
      exact_mod_cast hiE
    push_neg
    linarith
  constructor
  · set r2 : Resample :=
      { r with findex := r.findex + ((r.iloop_end - r.iloop_bgn : ℕ) : ℚ) }
      with hr2
    have h1' : r2.iloop_bgn < r2.iloop_end := h1
    have h2' : ((r2.iloop_end : ℚ)) < r2.findex := by
      show ((r.iloop_end : ℚ)) < r.findex + ((r.iloop_end - r.iloop_bgn : ℕ) : ℚ)
      linarith
    have hfold : foldPos r2 = foldPos r := by
      show (r.iloop_bgn : ℚ) +
          ratMod (r.findex + ((r.iloop_end - r.iloop_bgn : ℕ) : ℚ)
            - (r.iloop_bgn : ℚ)) ((r.iloop_end - r.iloop_bgn : ℕ) : ℚ)
        = foldPos r
      rw [show r.findex + ((r.iloop_end - r.iloop_bgn : ℕ) : ℚ)
            - (r.iloop_bgn : ℚ)
          = (r.findex - (r.iloop_bgn : ℚ))
            + ((r.iloop_end - r.iloop_bgn : ℕ) : ℚ) from by ring]
      rw [ratMod_add_right _ _ hL.ne']
      rfl
    rw [output_fold_eq r h1 h2, output_fold_eq r2 h1' h2', hfold]
    apply lerpAt_far
    · rfl
    · rfl
    · exact hfarq
    · show ¬(r.findex + ((r.iloop_end - r.iloop_bgn : ℕ) : ℚ)
        - ((⌊foldPos r⌋ : ℤ) : ℚ) < 1/1000)
      push_neg at hfarq ⊢
      linarith
  · intro h3 hlen hch
    have hiB : (r.iloop_bgn : ℤ) ≤ ⌊foldPos r⌋ := by
      apply Int.le_floor.mpr
      exact_mod_cast foldPos_lb r h1
    have hEf : (r.iloop_end : ℤ) < (r.audio_data.frame_count : ℤ) := by
      exact_mod_cast h3
    have hne : ¬((r.audio_data.frame_count : ℤ) = ⌊foldPos r⌋) := by omega
    have he : ⌊foldPos r⌋ + 1 < (r.audio_data.frame_count : ℤ) := by omega
    have hcc : ((r.ichannel : ℕ) : ℤ) < (r.audio_data.channel_count : ℤ) := by
      exact_mod_cast hch
    have hcc0 : (0 : ℤ) < (r.audio_data.channel_count : ℤ) :=
      lt_of_le_of_lt (by positivity) hcc
    have hlenZ : ((r.audio_data.fdata.length : ℕ) : ℤ)
        = (r.audio_data.frame_count : ℤ) * (r.audio_data.channel_count : ℤ) := by
      exact_mod_cast hlen
    have hi0 : 0 ≤ ⌊foldPos r⌋ := le_trans (by positivity) hiB
    have hk0pos : 0 ≤ ⌊foldPos r⌋ * (r.audio_data.channel_count : ℤ)
        + (r.ichannel : ℤ) := by positivity
    have hk1pos : 0 ≤ (⌊foldPos r⌋ + 1) * (r.audio_data.channel_count : ℤ)
        + (r.ichannel : ℤ) := by positivity
    have hk1lt : (⌊foldPos r⌋ + 1) * (r.audio_data.channel_count : ℤ)
        + (r.ichannel : ℤ) < (r.audio_data.fdata.length : ℤ) := by
      rw [hlenZ]
      nlinarith
    have hk0lt : ⌊foldPos r⌋ * (r.audio_data.channel_count : ℤ)
        + (r.ichannel : ℤ) < (r.audio_data.fdata.length : ℤ) := by
      nlinarith
    obtain ⟨v0, hv0⟩ := dataAt_some r.audio_data _ hk0pos hk0lt
    obtain ⟨v1, hv1⟩ := dataAt_some r.audio_data _ hk1pos hk1lt
    refine ⟨v0, v1, hv0, hv1, ?_⟩
    rw [output_fold_eq r h1 h2, if_neg hne, Resample.lerpAt]
    rw [if_pos he, hv0, hv1]

/-- C3 witness: the four-frame source with loop [1, 3) and index 9/2. -/
theorem C3_loop_fold_periodic_witness :
    rFold.iloop_bgn < rFold.iloop_end ∧
    ((rFold.iloop_end : ℚ)) < rFold.findex ∧
    (Resample.output
        { rFold with
          findex := rFold.findex + ((rFold.iloop_end - rFold.iloop_bgn : ℕ) : ℚ) }
      = Resample.output rFold ∧
    (rFold.iloop_end < rFold.audio_data.frame_count →
      rFold.audio_data.fdata.length
        = rFold.audio_data.frame_count * rFold.audio_data.channel_count →
      rFold.ichannel < rFold.audio_data.channel_count →
      ∃ v0 v1,
        rFold.audio_data.dataAt (⌊foldPos rFold⌋ * (rFold.audio_data.channel_count : ℤ)
          + (rFold.ichannel : ℤ)) = some v0 ∧
        rFold.audio_data.dataAt ((⌊foldPos rFold⌋ + 1) * (rFold.audio_data.channel_count : ℤ)
          + (rFold.ichannel : ℤ)) = some v1 ∧
        Resample.output rFold
          = some ((1 - (foldPos rFold - (⌊foldPos rFold⌋ : ℚ))) * v0
              + v1 * (foldPos rFold - (⌊foldPos rFold⌋ : ℚ))))) :=
  ⟨by norm_num [rFold], by norm_num [rFold],
    C3_loop_fold_periodic rFold (by norm_num [rFold]) (by norm_num [rFold])⟩

end BasicWaveSynth
